import Mathlib

/-!
Verification of the keyboard-layout core (`src/layout.rs`): key grids, layers,
layouts, the masked shuffle algorithm, position maps, and key-press
classification.  The Rust `[T; 33]` arrays are embedded as functions
`Fin 33 → T`; the `[Option<usize>; 128]` position-map array as
`Fin 128 → Option Nat`; the process-wide random source is made explicit, each
call to `random::<usize>()` becoming one `Nat` input.
-/

set_option maxRecDepth 100000
set_option maxHeartbeats 2000000

/-- Embeds Rust `KeyMap<T>`, a `[T; 33]` array indexed by grid position. -/
abbrev KeyMap (T : Type) := Fin 33 → T

/-- Builds a `KeyMap` from a literal list of its 33 entries, mirroring a Rust
`[T; 33]` array literal. -/
def keyMapOfList {T : Type} (xs : List T) (h : xs.length = 33) : KeyMap T :=
  fun p => xs.get ⟨(p : Nat), Nat.lt_of_lt_of_eq p.isLt h.symm⟩

/-- Embeds Rust `Layer`: one shift state's character at each grid position. -/
abbrev Layer := KeyMap Char

/-- Embeds Rust `Layout(Layer, Layer)`: the unshifted and shifted layers. -/
structure Layout where
  lower : Layer
  upper : Layer

/-- Embeds Rust `LayoutPosMap`, the `[Option<usize>; 128]` reverse index from
codepoint to grid position. -/
abbrev LayoutPosMap := Fin 128 → Option Nat

inductive Finger where
  | Thumb
  | Index
  | Middle
  | Ring
  | Pinky
deriving DecidableEq

inductive Hand where
  | Left
  | Right
deriving DecidableEq

inductive Row where
  | Top
  | Home
  | Bottom
  | Thumb
deriving DecidableEq

/-- Embeds Rust `KeyPress`: a character joined with its position and the
static finger/hand/row classification.  `pos` is `usize` in the source. -/
structure KeyPress where
  kc : Char
  pos : Nat
  finger : Finger
  hand : Hand
  row : Row
deriving DecidableEq

def INIT_LAYOUT : Layout :=
  { lower := keyMapOfList ['q', 'u', 'p', 'g', '/',   'z', 'l', 'w', 'y', '-', '=',
               'a', 'r', 'n', 's', 'd',   'f', 'h', 't', 'i', 'o', '\'',
               'j', 'k', 'v', 'c', ';',   'x', 'm', 'b', ',', '.',
               'e'] rfl,
    upper := keyMapOfList ['Q', 'U', 'P', 'G', '?',   'Z', 'L', 'W', 'Y', '_', '+',
               'A', 'R', 'N', 'S', 'D',   'F', 'H', 'T', 'I', 'O', '"',
               'J', 'K', 'V', 'C', ':',   'X', 'M', 'B', '<', '>',
               'E'] rfl }

def QWERTY_LAYOUT : Layout :=
  { lower := keyMapOfList ['q', 'w', 'e', 'r', 't',   'y', 'u', 'i', 'o', 'p', '-',
               'a', 's', 'd', 'f', 'g',   'h', 'j', 'k', 'l', ';', '\'',
               'z', 'x', 'c', 'v', 'b',   'n', 'm', ',', '.', '/',
               '\x00'] rfl,
    upper := keyMapOfList ['Q', 'W', 'E', 'R', 'T',   'Y', 'U', 'I', 'O', 'P', '_',
               'A', 'S', 'D', 'F', 'G',   'H', 'J', 'K', 'L', ':', '"',
               'Z', 'X', 'C', 'V', 'B',   'N', 'M', '<', '>', '?',
               '\x00'] rfl }

def DVORAK_LAYOUT : Layout :=
  { lower := keyMapOfList ['\'', ',', '.', 'p', 'y',   'f', 'g', 'c', 'r', 'l', '/',
               'a', 'o', 'e', 'u', 'i',   'd', 'h', 't', 'n', 's', '-',
               ';', 'q', 'j', 'k', 'x',   'b', 'm', 'w', 'v', 'z',
               '\x00'] rfl,
    upper := keyMapOfList ['"', ',', '.', 'P', 'Y',   'F', 'G', 'C', 'R', 'L', '?',
               'A', 'O', 'E', 'U', 'I',   'D', 'H', 'T', 'N', 'S', '_',
               ':', 'Q', 'J', 'K', 'X',   'B', 'M', 'W', 'V', 'Z',
               '\x00'] rfl }

def COLEMAK_LAYOUT : Layout :=
  { lower := keyMapOfList ['q', 'w', 'f', 'p', 'g',   'j', 'l', 'u', 'y', ';', '-',
               'a', 'r', 's', 't', 'd',   'h', 'n', 'e', 'i', 'o', '\'',
               'z', 'x', 'c', 'v', 'b',   'k', 'm', ',', '.', '/',
               '\x00'] rfl,
    upper := keyMapOfList ['Q', 'W', 'F', 'P', 'G',   'J', 'L', 'U', 'Y', ':', '_',
               'A', 'R', 'S', 'T', 'D',   'H', 'N', 'E', 'I', 'O', '"',
               'Z', 'X', 'C', 'V', 'B',   'K', 'M', '<', '>', 'Z',
               '\x00'] rfl }

def QGMLWY_LAYOUT : Layout :=
  { lower := keyMapOfList ['q', 'g', 'm', 'l', 'w',   'y', 'f', 'u', 'b', ';', '-',
               'd', 's', 't', 'n', 'r',   'i', 'a', 'e', 'o', 'h', '\'',
               'z', 'x', 'c', 'v', 'j',   'k', 'p', ',', '.', '/',
               '\x00'] rfl,
    upper := keyMapOfList ['Q', 'G', 'M', 'L', 'W',   'Y', 'F', 'U', 'B', ';', '-',
               'D', 'S', 'T', 'N', 'R',   'I', 'A', 'E', 'O', 'H', '\'',
               'Z', 'X', 'C', 'V', 'J',   'K', 'P', ',', '.', '/',
               '\x00'] rfl }

def WORKMAN_LAYOUT : Layout :=
  { lower := keyMapOfList ['q', 'd', 'r', 'w', 'b',   'j', 'f', 'u', 'p', ';', '-',
               'a', 's', 'h', 't', 'g',   'y', 'n', 'e', 'o', 'i', '\'',
               'z', 'x', 'm', 'c', 'v',   'k', 'l', ',', '.', '/',
               '\x00'] rfl,
    upper := keyMapOfList ['Q', 'D', 'R', 'W', 'B',   'J', 'F', 'U', 'P', ';', '-',
               'A', 'S', 'H', 'T', 'G',   'Y', 'N', 'E', 'O', 'I', '\'',
               'Z', 'X', 'M', 'C', 'V',   'K', 'L', ',', '.', '/',
               '\x00'] rfl }

/-- Embeds the static `LAYOUT_MASK`: which grid positions may be shuffled. -/
def LAYOUT_MASK : KeyMap Bool :=
  keyMapOfList [true,  true,  true,  true,  true,  true,  true,  true,  true,  true,  false,
    true,  true,  true,  true,  true,  true,  true,  true,  true,  true,  true,
    true,  true,  true,  true,  true,  true,  true,  true,  true,  true,
    false] rfl

def LAYOUT_MASK_NUM_SWAPPABLE : Nat := 31

def KEY_FINGERS : KeyMap Finger :=
  keyMapOfList [.Pinky, .Ring, .Middle, .Index, .Index,   .Index, .Index, .Middle, .Ring, .Pinky, .Pinky,
    .Pinky, .Ring, .Middle, .Index, .Index,   .Index, .Index, .Middle, .Ring, .Pinky, .Pinky,
    .Pinky, .Ring, .Middle, .Index, .Index,   .Index, .Index, .Middle, .Ring, .Pinky,
    .Thumb] rfl

def KEY_HANDS : KeyMap Hand :=
  keyMapOfList [.Left, .Left, .Left, .Left, .Left,   .Right, .Right, .Right, .Right, .Right, .Right,
    .Left, .Left, .Left, .Left, .Left,   .Right, .Right, .Right, .Right, .Right, .Right,
    .Left, .Left, .Left, .Left, .Left,   .Right, .Right, .Right, .Right, .Right,
    .Left] rfl

def KEY_ROWS : KeyMap Row :=
  keyMapOfList [.Top,    .Top,    .Top,    .Top,    .Top,      .Top,    .Top,    .Top,    .Top,    .Top,    .Top,
    .Home,   .Home,   .Home,   .Home,   .Home,     .Home,   .Home,   .Home,   .Home,   .Home,   .Home,
    .Bottom, .Bottom, .Bottom, .Bottom, .Bottom,   .Bottom, .Bottom, .Bottom, .Bottom, .Bottom,
    .Thumb] rfl

/-- Embeds the `while k <= i { if mask[k] == false { i += 1 }; k += 1 }` walk
of `Layout::shuffle_position`.  The loop's counter `k` only ever ranges over
the 33 mask slots; iterations with `k > i` (after the `while` condition has
failed) leave `i` unchanged, so the loop is rendered as a fold of its body
over all 33 slot indices in order. -/
def maskWalk (i0 : Nat) : Nat :=
  (List.finRange 33).foldl
    (fun i k => if (k : Nat) ≤ i ∧ LAYOUT_MASK k = false then i + 1 else i) i0

/-- The draw step of `Layout::shuffle_position`: given the two reduced random
draws `i ∈ [0,31)` and `j0 ∈ [0,30)`, bump `j0` by one when `j0 >= i`
(`if j >= i { j = j + 1 }` in the source). -/
def rankPair (i j0 : Nat) : Nat × Nat :=
  (i, if j0 ≥ i then j0 + 1 else j0)

/-- Embeds `Layout::shuffle_position`.  The two calls to `random::<usize>()`
are the explicit inputs `r1`, `r2`; each is reduced modulo the swappable
count, the draw step picks two distinct ranks, and the mask walk turns each
rank into a grid position. -/
def shufflePosition (r1 r2 : Nat) : Nat × Nat :=
  let d := rankPair (r1 % LAYOUT_MASK_NUM_SWAPPABLE)
                    (r2 % (LAYOUT_MASK_NUM_SWAPPABLE - 1))
  (maskWalk d.1, maskWalk d.2)

/-- The eligibility test of the spec, lifted to bare `Nat` grid positions:
position `n` is eligible when it is a real grid index and the shuffle mask is
`true` there. -/
def eligibleB (n : Nat) : Bool :=
  if h : n < 33 then LAYOUT_MASK ⟨n, h⟩ else false

/-- The list of eligible grid indices in increasing order. -/
def eligibleIndices : List Nat :=
  (List.range 33).filter eligibleB

/-- Closed form of the mask walk on the ranks the shuffle can draw: the walk
skips the masked-out slot 10, so ranks below 10 map to themselves and later
ranks shift up by one. -/
lemma maskWalk_closed : ∀ r < 31, maskWalk r = if r < 10 then r else r + 1 := by
  decide

lemma mod_swappable_lt (r : Nat) : r % LAYOUT_MASK_NUM_SWAPPABLE < 31 := by
  unfold LAYOUT_MASK_NUM_SWAPPABLE
  omega

lemma mod_swappable_pred_lt (r : Nat) :
    r % (LAYOUT_MASK_NUM_SWAPPABLE - 1) < 30 := by
  unfold LAYOUT_MASK_NUM_SWAPPABLE
  omega

lemma rankPair_fst_lt {i j0 : Nat} (hi : i < 31) :
    (rankPair i j0).1 < 31 := by
  simp only [rankPair]
  omega

lemma rankPair_snd_lt {i j0 : Nat} (hj : j0 < 30) :
    (rankPair i j0).2 < 31 := by
  simp only [rankPair]
  split <;> omega

lemma maskWalk_lt {r : Nat} (h : r < 31) : maskWalk r < 33 := by
  rw [maskWalk_closed r h]
  split <;> omega

lemma shufflePosition_fst_lt (r1 r2 : Nat) : (shufflePosition r1 r2).1 < 33 := by
  simp only [shufflePosition]
  exact maskWalk_lt (rankPair_fst_lt (mod_swappable_lt r1))

lemma shufflePosition_snd_lt (r1 r2 : Nat) : (shufflePosition r1 r2).2 < 33 := by
  simp only [shufflePosition]
  exact maskWalk_lt (rankPair_snd_lt (mod_swappable_pred_lt r2))

/-- Embeds `Layer::swap`: exchange the characters at positions `i` and `j`.
The `usize` arguments carry the source's `< 33` contract in their type. -/
def Layer.swap (l : Layer) (i j : Fin 33) : Layer :=
  fun p => if p = i then l j else if p = j then l i else l p

/-- Embeds one iteration of the loop in `Layout::shuffle`: draw a position
pair and swap it in both layers. -/
def Layout.shuffleStep (L : Layout) (d : Nat × Nat) : Layout :=
  { lower := Layer.swap L.lower
      ⟨(shufflePosition d.1 d.2).1, shufflePosition_fst_lt d.1 d.2⟩
      ⟨(shufflePosition d.1 d.2).2, shufflePosition_snd_lt d.1 d.2⟩,
    upper := Layer.swap L.upper
      ⟨(shufflePosition d.1 d.2).1, shufflePosition_fst_lt d.1 d.2⟩
      ⟨(shufflePosition d.1 d.2).2, shufflePosition_snd_lt d.1 d.2⟩ }

/-- Embeds `Layout::shuffle(times)`.  The ambient random source is made
explicit: `draws` lists the pair of `random::<usize>()` results consumed by
each of the `times = draws.length` iterations. -/
def Layout.shuffle (L : Layout) (draws : List (Nat × Nat)) : Layout :=
  draws.foldl Layout.shuffleStep L

/-- Embeds the body of the `for (i, c) in layer.into_iter().enumerate()` loop
of `Layer::fill_position_map`: record position `i` for character `c` when its
codepoint is below 128. -/
def fillStep (l : Layer) (m : LayoutPosMap) (i : Fin 33) : LayoutPosMap :=
  if h : (l i).toNat < 128 then
    Function.update m ⟨(l i).toNat, h⟩ (some (i : Nat))
  else m

/-- Embeds `Layer::fill_position_map`: walk the 33 positions in increasing
order, recording each sub-128 character's position. -/
def Layer.fillPositionMap (l : Layer) (m : LayoutPosMap) : LayoutPosMap :=
  (List.finRange 33).foldl (fillStep l) m

/-- Embeds `Layout::get_position_map`: start from an all-`None` table, fill
from the lower layer, then from the upper layer. -/
def Layout.getPositionMap (L : Layout) : LayoutPosMap :=
  Layer.fillPositionMap L.upper (Layer.fillPositionMap L.lower (fun _ => none))

/-- Embeds `LayoutPosMap::get_key_position`: characters with codepoint at
least 128 are never looked up in the 128-slot table. -/
def LayoutPosMap.getKeyPosition (m : LayoutPosMap) (kc : Char) : Option Nat :=
  if h : kc.toNat < 128 then m ⟨kc.toNat, h⟩ else none

/-- Embeds `KeyPress::new`: look the character up in the position map and, on
success, join the position with the three static geometry tables.  Indexing a
33-entry geometry array with a position `≥ 33` aborts in the source; that
(unreachable for maps built by `Layout.getPositionMap`) abort is modelled as
`none`. -/
def KeyPress.new (kc : Char) (m : LayoutPosMap) : Option KeyPress :=
  match m.getKeyPosition kc with
  | some pos =>
    if h : pos < 33 then
      some { kc := kc, pos := pos, finger := KEY_FINGERS ⟨pos, h⟩,
             hand := KEY_HANDS ⟨pos, h⟩, row := KEY_ROWS ⟨pos, h⟩ }
    else none
  | none => none

/-- Embeds `impl fmt::Display for Layer`: the four-line diagram written by the
source's single `write!` format string, split at each `{}` placeholder. -/
def Layer.render (l : Layer) : String :=
  (l 0).toString ++ " " ++ (l 1).toString ++ " " ++ (l 2).toString ++ " " ++
    (l 3).toString ++ " " ++ (l 4).toString ++ " | " ++
    (l 5).toString ++ " " ++ (l 6).toString ++ " " ++ (l 7).toString ++ " " ++
    (l 8).toString ++ " " ++ (l 9).toString ++ " " ++ (l 10).toString ++ "\n" ++
  (l 11).toString ++ " " ++ (l 12).toString ++ " " ++ (l 13).toString ++ " " ++
    (l 14).toString ++ " " ++ (l 15).toString ++ " | " ++
    (l 16).toString ++ " " ++ (l 17).toString ++ " " ++ (l 18).toString ++ " " ++
    (l 19).toString ++ " " ++ (l 20).toString ++ " " ++ (l 21).toString ++ "\n" ++
  (l 22).toString ++ " " ++ (l 23).toString ++ " " ++ (l 24).toString ++ " " ++
    (l 25).toString ++ " " ++ (l 26).toString ++ " | " ++
    (l 27).toString ++ " " ++ (l 28).toString ++ " " ++ (l 29).toString ++ " " ++
    (l 30).toString ++ " " ++ (l 31).toString ++ "\n" ++
  "        " ++ (l 32).toString

/-- Embeds `impl fmt::Display for Layout`: delegates to the lower layer. -/
def Layout.render (L : Layout) : String :=
  Layer.render L.lower

/-- One diagram row as the spec describes it: the keys of the left half
separated by single spaces, the separator " | ", then the right half. -/
def canonicalRow (cs ds : List Char) : String :=
  String.intercalate " " (cs.map Char.toString) ++ " | " ++
    String.intercalate " " (ds.map Char.toString)

/-- The canonical four-line diagram of one layer as the spec describes it:
top row split 5 and 6, home row split 5 and 6, bottom row split 5 and 5, and
the thumb key on its own line indented by 8 spaces. -/
def canonicalDiagram (l : Layer) : String :=
  canonicalRow [l 0, l 1, l 2, l 3, l 4] [l 5, l 6, l 7, l 8, l 9, l 10] ++
    "\n" ++
  canonicalRow [l 11, l 12, l 13, l 14, l 15]
    [l 16, l 17, l 18, l 19, l 20, l 21] ++ "\n" ++
  canonicalRow [l 22, l 23, l 24, l 25, l 26]
    [l 27, l 28, l 29, l 30, l 31] ++ "\n" ++
  "        " ++ (l 32).toString

/-- The position recorded for codepoint `c` by one layer, as the spec
describes it: the highest grid position whose character has codepoint `c`
(later positions overwrite earlier ones). -/
def lastOccurrence (l : Layer) (c : Fin 128) : Option Nat :=
  ((List.finRange 33).reverse.find? (fun i => (l i).toNat == (c : Nat))).map
    (fun i => (i : Nat))

lemma foldl_fillStep_apply (l : Layer) (ps : List (Fin 33)) (m : LayoutPosMap)
    (c : Fin 128) :
    (ps.foldl (fillStep l) m) c =
      match ps.reverse.find? (fun i => (l i).toNat == (c : Nat)) with
      | some i => some (i : Nat)
      | none => m c := by
  induction ps using List.reverseRecOn generalizing m with
  | nil => rfl
  | append_singleton ps p ih =>
    rw [List.foldl_append, List.reverse_append]
    simp only [List.foldl_cons, List.foldl_nil, List.reverse_cons,
      List.reverse_nil, List.nil_append, List.singleton_append,
      List.find?_cons]
    cases hb : ((l p).toNat == (c : Nat)) with
    | true =>
      have hv : (l p).toNat = (c : Nat) := by simpa using hb
      have hlt : (l p).toNat < 128 := hv ▸ c.isLt
      simp only [fillStep, dif_pos hlt]
      have hidx : (⟨(l p).toNat, hlt⟩ : Fin 128) = c := Fin.ext hv
      rw [hidx, Function.update_same]
    | false =>
      have hne : ∀ h : (l p).toNat < 128, (⟨(l p).toNat, h⟩ : Fin 128) ≠ c := by
        intro h hc
        have : (l p).toNat = (c : Nat) := congrArg Fin.val hc
        rw [this] at hb
        simp at hb
      by_cases hlt : (l p).toNat < 128
      · simp only [fillStep, dif_pos hlt]
        rw [Function.update_noteq (Ne.symm (hne hlt))]
        exact ih m
      · simp only [fillStep, dif_neg hlt]
        exact ih m

lemma fillPositionMap_apply (l : Layer) (m : LayoutPosMap) (c : Fin 128) :
    Layer.fillPositionMap l m c =
      match lastOccurrence l c with
      | some v => some v
      | none => m c := by
  rw [Layer.fillPositionMap, foldl_fillStep_apply, lastOccurrence]
  cases (List.finRange 33).reverse.find? (fun i => (l i).toNat == (c : Nat)) <;>
    rfl

/-- Characterization of the built position map: the upper layer's last
occurrence of a codepoint wins; otherwise the lower layer's; otherwise the
slot is empty. -/
lemma getPositionMap_apply (L : Layout) (c : Fin 128) :
    L.getPositionMap c =
      match lastOccurrence L.upper c with
      | some v => some v
      | none =>
        match lastOccurrence L.lower c with
        | some v => some v
        | none => none := by
  rw [Layout.getPositionMap, fillPositionMap_apply]
  cases lastOccurrence L.upper c with
  | some v => rfl
  | none =>
    rw [fillPositionMap_apply]

lemma lastOccurrence_lt {l : Layer} {c : Fin 128} {v : Nat}
    (h : lastOccurrence l c = some v) : v < 33 := by
  unfold lastOccurrence at h
  cases hf : (List.finRange 33).reverse.find? (fun i => (l i).toNat == (c : Nat)) with
  | none => rw [hf] at h; simp at h
  | some i =>
    rw [hf] at h
    have hv : (i : Nat) = v := by simpa using h
    have hlt := i.isLt
    omega

/-- Every position recorded in a map built by `get_position_map` is below 33:
it is an index of the 33-entry layer array that produced it. -/
lemma getPositionMap_lt (L : Layout) (c : Fin 128) (p : Nat)
    (h : L.getPositionMap c = some p) : p < 33 := by
  rw [getPositionMap_apply] at h
  cases hu : lastOccurrence L.upper c with
  | some v =>
    rw [hu] at h
    have : v = p := by injection h
    exact this ▸ lastOccurrence_lt hu
  | none =>
    rw [hu] at h
    cases hl : lastOccurrence L.lower c with
    | some v =>
      rw [hl] at h
      have : v = p := by injection h
      exact this ▸ lastOccurrence_lt hl
    | none => rw [hl] at h; exact absurd h (by simp)

/-- The multiset of characters a layer assigns across the whole grid. -/
def layerChars (l : Layer) : Multiset Char :=
  Multiset.map l Finset.univ.val

lemma swap_eq_comp (l : Layer) (i j : Fin 33) :
    Layer.swap l i j = l ∘ (Equiv.swap i j) := by
  funext p
  simp only [Layer.swap, Function.comp_apply, Equiv.swap_apply_def]
  split_ifs <;> rfl

lemma layerChars_swap (l : Layer) (i j : Fin 33) :
    layerChars (Layer.swap l i j) = layerChars l := by
  rw [swap_eq_comp, layerChars, layerChars]
  have huniv : Multiset.map (⇑(Equiv.swap i j)) Finset.univ.val =
      Finset.univ.val := by
    have h := Finset.map_univ_equiv (Equiv.swap i j)
    have h2 := congrArg Finset.val h
    rwa [Finset.map_val] at h2
  calc Multiset.map (l ∘ ⇑(Equiv.swap i j)) Finset.univ.val
      = Multiset.map l (Multiset.map (⇑(Equiv.swap i j)) Finset.univ.val) := by
        rw [Multiset.map_map]
    _ = Multiset.map l Finset.univ.val := by rw [huniv]

lemma shuffle_chars (draws : List (Nat × Nat)) (L : Layout) :
    layerChars (L.shuffle draws).lower = layerChars L.lower ∧
    layerChars (L.shuffle draws).upper = layerChars L.upper := by
  induction draws generalizing L with
  | nil => exact ⟨rfl, rfl⟩
  | cons d ds ih =>
    have hstep : L.shuffle (d :: ds) = (L.shuffleStep d).shuffle ds := rfl
    rw [hstep]
    have h := ih (L.shuffleStep d)
    refine ⟨h.1.trans ?_, h.2.trans ?_⟩
    · exact layerChars_swap _ _ _
    · exact layerChars_swap _ _ _

lemma swap_apply_of_ne (l : Layer) (i j p : Fin 33) (hpi : p ≠ i)
    (hpj : p ≠ j) : Layer.swap l i j p = l p := by
  simp only [Layer.swap, if_neg hpi, if_neg hpj]

lemma maskWalk_avoids {r : Nat} (h : r < 31) :
    maskWalk r ≠ 10 ∧ maskWalk r ≠ 32 := by
  rw [maskWalk_closed r h]
  split <;> omega

lemma shufflePosition_avoids (r1 r2 : Nat) :
    (shufflePosition r1 r2).1 ≠ 10 ∧ (shufflePosition r1 r2).1 ≠ 32 ∧
    (shufflePosition r1 r2).2 ≠ 10 ∧ (shufflePosition r1 r2).2 ≠ 32 := by
  simp only [shufflePosition]
  have hr1 : (rankPair (r1 % LAYOUT_MASK_NUM_SWAPPABLE)
      (r2 % (LAYOUT_MASK_NUM_SWAPPABLE - 1))).1 < 31 :=
    rankPair_fst_lt (mod_swappable_lt r1)
  have hr2 : (rankPair (r1 % LAYOUT_MASK_NUM_SWAPPABLE)
      (r2 % (LAYOUT_MASK_NUM_SWAPPABLE - 1))).2 < 31 :=
    rankPair_snd_lt (mod_swappable_pred_lt r2)
  have h1 := maskWalk_avoids hr1
  have h2 := maskWalk_avoids hr2
  exact ⟨h1.1, h1.2, h2.1, h2.2⟩

lemma rankPair_ne (i j0 : Nat) : (rankPair i j0).1 ≠ (rankPair i j0).2 := by
  simp only [rankPair]
  split <;> omega

lemma maskWalk_inj {a b : Nat} (ha : a < 31) (hb : b < 31) (hab : a ≠ b) :
    maskWalk a ≠ maskWalk b := by
  rw [maskWalk_closed a ha, maskWalk_closed b hb]
  split_ifs <;> omega

lemma eligibleB_of : ∀ n < 33, n ≠ 10 → n ≠ 32 → eligibleB n = true := by
  decide

lemma maskWalk_eligible {r : Nat} (h : r < 31) :
    eligibleB (maskWalk r) = true := by
  have hav := maskWalk_avoids h
  exact eligibleB_of _ (maskWalk_lt h) hav.1 hav.2

/-- The walk sends rank `r` to the `r`-th eligible grid index. -/
lemma maskWalk_nth : ∀ r < 31, eligibleIndices.get? r = some (maskWalk r) := by
  decide

lemma shufflePosition_distinct (r1 r2 : Nat) :
    (shufflePosition r1 r2).1 ≠ (shufflePosition r1 r2).2 := by
  simp only [shufflePosition]
  exact maskWalk_inj (rankPair_fst_lt (mod_swappable_lt r1))
    (rankPair_snd_lt (mod_swappable_pred_lt r2))
    (rankPair_ne _ _)

lemma shufflePosition_eligible (r1 r2 : Nat) :
    eligibleB (shufflePosition r1 r2).1 = true ∧
    eligibleB (shufflePosition r1 r2).2 = true := by
  simp only [shufflePosition]
  exact ⟨maskWalk_eligible (rankPair_fst_lt (mod_swappable_lt r1)),
    maskWalk_eligible (rankPair_snd_lt (mod_swappable_pred_lt r2))⟩

attribute [irreducible] maskWalk shufflePosition

lemma shuffle_fixed_slot (draws : List (Nat × Nat)) (L : Layout) (p : Fin 33)
    (hp : (p : Nat) = 10 ∨ (p : Nat) = 32) :
    (L.shuffle draws).lower p = L.lower p ∧
    (L.shuffle draws).upper p = L.upper p := by
  induction draws generalizing L with
  | nil => exact ⟨rfl, rfl⟩
  | cons d ds ih =>
    have hstep : L.shuffle (d :: ds) = (L.shuffleStep d).shuffle ds := rfl
    rw [hstep]
    have h := ih (L.shuffleStep d)
    have hav := shufflePosition_avoids d.1 d.2
    have hi : p ≠ (⟨(shufflePosition d.1 d.2).1,
        shufflePosition_fst_lt d.1 d.2⟩ : Fin 33) := by
      intro hc
      have hv : (p : Nat) = (shufflePosition d.1 d.2).1 := congrArg Fin.val hc
      rcases hp with h10 | h32
      · exact hav.1 (hv.symm.trans h10)
      · exact hav.2.1 (hv.symm.trans h32)
    have hj : p ≠ (⟨(shufflePosition d.1 d.2).2,
        shufflePosition_snd_lt d.1 d.2⟩ : Fin 33) := by
      intro hc
      have hv : (p : Nat) = (shufflePosition d.1 d.2).2 := congrArg Fin.val hc
      rcases hp with h10 | h32
      · exact hav.2.2.1 (hv.symm.trans h10)
      · exact hav.2.2.2 (hv.symm.trans h32)
    refine ⟨h.1.trans ?_, h.2.trans ?_⟩
    · exact swap_apply_of_ne _ _ _ _ hi hj
    · exact swap_apply_of_ne _ _ _ _ hi hj

lemma getKeyPosition_lt (L : Layout) (kc : Char) (p : Nat)
    (h : (L.getPositionMap).getKeyPosition kc = some p) : p < 33 := by
  unfold LayoutPosMap.getKeyPosition at h
  split at h
  · exact getPositionMap_lt L _ _ h
  · exact absurd h (by simp)

lemma keyPressNew_eq_none {kc : Char} {m : LayoutPosMap}
    (h : m.getKeyPosition kc = none) : KeyPress.new kc m = none := by
  unfold KeyPress.new
  rw [h]

lemma keyPressNew_eq_some {kc : Char} {m : LayoutPosMap} {p : Nat}
    (h : m.getKeyPosition kc = some p) (hp : p < 33) :
    KeyPress.new kc m =
      some ⟨kc, p, KEY_FINGERS ⟨p, hp⟩, KEY_HANDS ⟨p, hp⟩,
        KEY_ROWS ⟨p, hp⟩⟩ := by
  unfold KeyPress.new
  rw [h]
  show (if hb : p < 33 then
      some (⟨kc, p, KEY_FINGERS ⟨p, hb⟩, KEY_HANDS ⟨p, hb⟩,
        KEY_ROWS ⟨p, hb⟩⟩ : KeyPress)
    else none) = _
  rw [dif_pos hp]

/-- C1: every pair of random draws makes `shuffle_position` return two grid
positions that are distinct, both eligible under the shuffle mask, and both
below 33; the draw step (`i` uniform in `[0,31)`, `j` uniform in `[0,30)`,
bumped when `j >= i`) is a bijection onto ordered pairs of distinct ranks in
`[0,31)`, so the pair is uniform over those; and the mask walk sends each
rank to the corresponding eligible grid index. -/
theorem claim_C1 :
    (∀ r1 r2 : Nat,
        (shufflePosition r1 r2).1 ≠ (shufflePosition r1 r2).2 ∧
        eligibleB (shufflePosition r1 r2).1 = true ∧
        eligibleB (shufflePosition r1 r2).2 = true ∧
        (shufflePosition r1 r2).1 < 33 ∧ (shufflePosition r1 r2).2 < 33) ∧
    (∀ i j0 : Nat, i < 31 → j0 < 30 →
        (rankPair i j0).1 ≠ (rankPair i j0).2 ∧
        (rankPair i j0).1 < 31 ∧ (rankPair i j0).2 < 31) ∧
    (∀ a b : Nat, a < 31 → b < 31 → a ≠ b →
        ∃! d : Nat × Nat, d.1 < 31 ∧ d.2 < 30 ∧ rankPair d.1 d.2 = (a, b)) ∧
    (∀ r : Nat, r < 31 → eligibleIndices.get? r = some (maskWalk r)) := by
  refine ⟨?_, ?_, ?_, maskWalk_nth⟩
  · intro r1 r2
    exact ⟨shufflePosition_distinct r1 r2, (shufflePosition_eligible r1 r2).1,
      (shufflePosition_eligible r1 r2).2, shufflePosition_fst_lt r1 r2,
      shufflePosition_snd_lt r1 r2⟩
  · intro i j0 hi hj
    exact ⟨rankPair_ne i j0, rankPair_fst_lt hi, rankPair_snd_lt hj⟩
  · intro a b ha hb hab
    refine ⟨(a, if a < b then b - 1 else b), ⟨?_, ?_, ?_⟩, ?_⟩
    · exact ha
    · show (if a < b then b - 1 else b) < 30
      split <;> omega
    · simp only [rankPair, Prod.mk.injEq]
      refine ⟨trivial, ?_⟩
      split_ifs <;> omega
    · rintro ⟨i, j0⟩ ⟨hi31, hj30, heq⟩
      simp only [rankPair, Prod.mk.injEq] at heq
      obtain ⟨h1, h2⟩ := heq
      subst h1
      simp only [Prod.mk.injEq]
      refine ⟨trivial, ?_⟩
      split_ifs at h2 ⊢ <;> omega

/-- C1 witness: the draw-step facts and the rank-to-grid-index remap at
concrete inputs. -/
theorem claim_C1_witness :
    ((rankPair 4 7).1 ≠ (rankPair 4 7).2 ∧ (rankPair 4 7).1 < 31 ∧
      (rankPair 4 7).2 < 31) ∧
    (∃! d : Nat × Nat, d.1 < 31 ∧ d.2 < 30 ∧ rankPair d.1 d.2 = (12, 5)) ∧
    eligibleIndices.get? 0 = some (maskWalk 0) :=
  ⟨claim_C1.2.1 4 7 (by decide) (by decide),
   claim_C1.2.2.1 12 5 (by decide) (by decide) (by decide),
   claim_C1.2.2.2 0 (by decide)⟩

/-- C2: shuffling any layout for any number of steps leaves each layer's
multiset of characters unchanged: shuffle is a pure permutation. -/
theorem claim_C2 (L : Layout) (draws : List (Nat × Nat)) :
    layerChars (L.shuffle draws).lower = layerChars L.lower ∧
    layerChars (L.shuffle draws).upper = layerChars L.upper :=
  shuffle_chars draws L

/-- C3: after any sequence of shuffles, the characters at the two
mask-ineligible grid positions 10 and 32 are unchanged in both layers. -/
theorem claim_C3 (L : Layout) (draws : List (Nat × Nat)) :
    (L.shuffle draws).lower ⟨10, by omega⟩ = L.lower ⟨10, by omega⟩ ∧
    (L.shuffle draws).upper ⟨10, by omega⟩ = L.upper ⟨10, by omega⟩ ∧
    (L.shuffle draws).lower ⟨32, by omega⟩ = L.lower ⟨32, by omega⟩ ∧
    (L.shuffle draws).upper ⟨32, by omega⟩ = L.upper ⟨32, by omega⟩ := by
  have h10 := shuffle_fixed_slot draws L ⟨10, by omega⟩ (Or.inl rfl)
  have h32 := shuffle_fixed_slot draws L ⟨32, by omega⟩ (Or.inr rfl)
  exact ⟨h10.1, h10.2, h32.1, h32.2⟩

/-- C4: the shuffle mask has exactly 31 of its 33 entries true, the two
false entries being index 10 (last top-row key) and index 32 (thumb key),
and `LAYOUT_MASK_NUM_SWAPPABLE` equals the number of true entries. -/
theorem claim_C4 :
    (Finset.univ.filter (fun p : Fin 33 => LAYOUT_MASK p = true)).card = 31 ∧
    (∀ p : Fin 33, LAYOUT_MASK p = false ↔ (p : Nat) = 10 ∨ (p : Nat) = 32) ∧
    LAYOUT_MASK_NUM_SWAPPABLE =
      (Finset.univ.filter (fun p : Fin 33 => LAYOUT_MASK p = true)).card := by
  exact ⟨by decide, by decide, by decide⟩

/-- C5: the position map is built by filling from the lower layer first and
then the upper layer, each fill recording `map[c] = p` for every position
whose sub-128 character is `c`, overwriting prior entries; hence for each
codepoint the upper layer's last occurrence wins, then the lower layer's
last occurrence, and otherwise the slot is empty. -/
theorem claim_C5 (L : Layout) (c : Fin 128) :
    L.getPositionMap c =
      match lastOccurrence L.upper c with
      | some v => some v
      | none =>
        match lastOccurrence L.lower c with
        | some v => some v
        | none => none :=
  getPositionMap_apply L c

/-- C6: `KeyPress::new` returns a value exactly when the position-map lookup
succeeds, and that value carries the finger, hand and row read from the
three static geometry tables at the looked-up position; in particular, on
the reference layout's map, looking up the character q yields position 0
with finger Pinky, hand Left, row Top. -/
theorem claim_C6 :
    (∀ (kc : Char) (L : Layout),
        KeyPress.new kc (L.getPositionMap) = none ↔
          (L.getPositionMap).getKeyPosition kc = none) ∧
    (∀ (kc : Char) (L : Layout) (p : Nat) (h : p < 33),
        (L.getPositionMap).getKeyPosition kc = some p →
        KeyPress.new kc (L.getPositionMap) =
          some ⟨kc, p, KEY_FINGERS ⟨p, h⟩, KEY_HANDS ⟨p, h⟩,
            KEY_ROWS ⟨p, h⟩⟩) ∧
    KeyPress.new 'q' (INIT_LAYOUT.getPositionMap) =
      some ⟨'q', 0, Finger.Pinky, Hand.Left, Row.Top⟩ := by
  refine ⟨?_, ?_, by decide⟩
  · intro kc L
    constructor
    · intro hnew
      cases hk : (L.getPositionMap).getKeyPosition kc with
      | none => rfl
      | some p =>
        have hp := getKeyPosition_lt L kc p hk
        rw [keyPressNew_eq_some hk hp] at hnew
        exact absurd hnew (by simp)
    · intro hk
      exact keyPressNew_eq_none hk
  · intro kc L p h hk
    exact keyPressNew_eq_some hk h

/-- C6 witness: the success case of `KeyPress::new` at the concrete input q
on the reference layout's position map. -/
theorem claim_C6_witness :
    KeyPress.new 'q' (INIT_LAYOUT.getPositionMap) =
      some ⟨'q', 0, KEY_FINGERS ⟨0, by omega⟩, KEY_HANDS ⟨0, by omega⟩,
        KEY_ROWS ⟨0, by omega⟩⟩ :=
  claim_C6.2.1 'q' INIT_LAYOUT 0 (by omega) (by decide)

/-- C7: `get_key_position` returns the recorded table entry for characters
with codepoint below 128 and signals absence for all others; it is a pure
read of the map. -/
theorem claim_C7 (m : LayoutPosMap) (kc : Char) :
    (128 ≤ kc.toNat → m.getKeyPosition kc = none) ∧
    ∀ h : kc.toNat < 128, m.getKeyPosition kc = m ⟨kc.toNat, h⟩ := by
  constructor
  · intro hge
    unfold LayoutPosMap.getKeyPosition
    rw [dif_neg (by omega)]
  · intro h
    unfold LayoutPosMap.getKeyPosition
    rw [dif_pos h]

/-- C7 witness: a codepoint-8364 character (outside the 128-slot table) is
never found, and the sub-128 character q reads its table slot. -/
theorem claim_C7_witness :
    (QWERTY_LAYOUT.getPositionMap).getKeyPosition (Char.ofNat 8364) = none ∧
    (INIT_LAYOUT.getPositionMap).getKeyPosition 'q' =
      INIT_LAYOUT.getPositionMap ⟨113, by omega⟩ :=
  ⟨(claim_C7 _ _).1 (by decide), (claim_C7 _ _).2 (by decide)⟩

/-- C8: a layout's textual form renders only its lower layer, as the
canonical four-line diagram: top and home rows as a 5-key half, the
separator " | ", and a 6-key half; the bottom row split 5 and 5; and the
thumb key on its own line indented by exactly 8 spaces. -/
theorem claim_C8 (L : Layout) : L.render = canonicalDiagram L.lower := by
  simp [Layout.render, Layer.render, canonicalDiagram, canonicalRow,
    String.intercalate, String.intercalate.go, String.append_assoc]

/-- C9: every position stored in a map built by `get_position_map` is below
33, so the indexing of the three 33-entry geometry tables inside
`KeyPress::new` is always in bounds. -/
theorem claim_C9 :
    (∀ (L : Layout) (c : Fin 128) (p : Nat),
        L.getPositionMap c = some p → p < 33) ∧
    (∀ (L : Layout) (kc : Char) (p : Nat),
        (L.getPositionMap).getKeyPosition kc = some p → p < 33) :=
  ⟨getPositionMap_lt, getKeyPosition_lt⟩

/-- C9 witness: the reference layout's map stores position 0 for codepoint
113, and that position is below 33. -/
theorem claim_C9_witness :
    INIT_LAYOUT.getPositionMap ⟨113, by omega⟩ = some 0 ∧ (0 : Nat) < 33 :=
  ⟨by decide, claim_C9.1 INIT_LAYOUT ⟨113, by omega⟩ 0 (by decide)⟩

/-- C10: in every preset whose thumb slot holds the NUL filler character
(QWERTY, Dvorak, Colemak, QGMLWY, Workman), NUL has codepoint below 128 and
is recorded: the lookup returns position 32 and `KeyPress::new` returns a
key press classified finger Thumb, hand Left, row Thumb, rather than
signalling absence. -/
theorem claim_C10 :
    ('\x00').toNat < 128 ∧
    (QWERTY_LAYOUT.getPositionMap).getKeyPosition '\x00' = some 32 ∧
    KeyPress.new '\x00' (QWERTY_LAYOUT.getPositionMap) =
      some ⟨'\x00', 32, Finger.Thumb, Hand.Left, Row.Thumb⟩ ∧
    (DVORAK_LAYOUT.getPositionMap).getKeyPosition '\x00' = some 32 ∧
    KeyPress.new '\x00' (DVORAK_LAYOUT.getPositionMap) =
      some ⟨'\x00', 32, Finger.Thumb, Hand.Left, Row.Thumb⟩ ∧
    (COLEMAK_LAYOUT.getPositionMap).getKeyPosition '\x00' = some 32 ∧
    KeyPress.new '\x00' (COLEMAK_LAYOUT.getPositionMap) =
      some ⟨'\x00', 32, Finger.Thumb, Hand.Left, Row.Thumb⟩ ∧
    (QGMLWY_LAYOUT.getPositionMap).getKeyPosition '\x00' = some 32 ∧
    KeyPress.new '\x00' (QGMLWY_LAYOUT.getPositionMap) =
      some ⟨'\x00', 32, Finger.Thumb, Hand.Left, Row.Thumb⟩ ∧
    (WORKMAN_LAYOUT.getPositionMap).getKeyPosition '\x00' = some 32 ∧
    KeyPress.new '\x00' (WORKMAN_LAYOUT.getPositionMap) =
      some ⟨'\x00', 32, Finger.Thumb, Hand.Left, Row.Thumb⟩ := by
  decide
